import Mathlib

/-!
Shallow embedding of the kkamyshanov telnet server.

The repository ships two variants of the per-connection parser:

* the history variant (namespace `V1`): the edit buffer is a growable
  `std::string`, committed lines are stored in a `std::vector<std::string>`
  history with a 16-bit navigation cursor (`unsigned short history_index`),
  and the arrow keys browse the history;
* the fixed-buffer variant (namespace `V2`): the edit buffer is a raw
  `char` array of size `buf_size` addressed by pointers, a printable byte
  arriving with the write cursor at `buf_end = buf_start + buf_size - 1`
  aborts the session with `-1`, and the arrow handlers are stubs.

The resource registry (`gc.cpp`) is shared by both variants.  Its three
operations each run under one mutex, so an interleaving of calls is a
sequence of atomic operations on the registry list.

Conventions: a byte is a `Char` (the C `char` of the source, always ASCII
here); handler results are `Int` exactly as in the source (`0` = Continue,
`1` = Terminate, negative = Fail); the third component of a handler result
is the list of bytes written to the client socket (`send` calls), in order.
`history_index` is a C `unsigned short`, so every mutation that can exceed
16 bits is reduced `% 65536` exactly where the C code truncates.
-/

/-- FSM states, realised in the source as the function pointer
`parse_data::func` pointing at `parser_fsm_main`, `parser_fsm_arrow_check`
or `parser_fsm_arrow`. -/
inductive FsmState where
  | main : FsmState
  | arrowCheck : FsmState
  | arrow : FsmState
deriving DecidableEq, Repr

/-- C `isprint` on the byte values the server receives (ASCII `0x20`–`0x7E`). -/
def isprint (c : Char) : Bool :=
  decide (32 ≤ c.toNat ∧ c.toNat ≤ 126)

/-- The prompt constant `PROMPT("> ", 2)` of `parser_handler`. -/
def PROMPT : List Char := "> ".toList

namespace V1

/-- Per-session state of the history variant: the current state function,
the edit buffer (`std::string *buf`), the command history
(`std::vector<std::string> *history`) and the 16-bit cursor
(`unsigned short history_index`). -/
structure Session where
  func : FsmState
  buf : List Char
  history : List (List Char)
  historyIndex : Nat
deriving DecidableEq, Repr

/-- Session state at the top of `parser_fsm`: state function
`parser_fsm_main`, empty buffer, empty history, cursor `0`. -/
def init_session : Session :=
  { func := .main, buf := [], history := [], historyIndex := 0 }

/-- The literal-command response built in the commit branch of
`parser_fsm_main`: `"help"` and `"Pinata"` get canned replies, anything
else is echoed back behind `"Received command: "`. -/
def command_response (buf : List Char) : List Char :=
  if buf = "help".toList then
    ("Base Telnet Server \r\n" ++
     "Use ARROW_UP or ARROW_DOWN for restore comand \r\n").toList
  else if buf = "Pinata".toList then
    "Tequila! \r\n".toList
  else
    "Received command: ".toList ++ buf ++ "\r\n".toList

/-- `parser_fsm_main` of the history variant: one byte in the `Normal`
state.  `0x03`/`0x04` terminate; CR/LF echo `"\r\n"`, commit a non-empty
buffer (popping the last history entry first when the cursor is not at the
history length, as the source does mid-browse) and resend the prompt;
`ESC` moves to the arrow-check state; backspace/DEL erase; printable bytes
are appended and echoed; everything else is dropped. -/
def parser_fsm_main (s : Session) (c : Char) : Int × Session × List Char :=
  if c = '\x03' ∨ c = '\x04' then
    (1, s, [])
  else if c = '\r' ∨ c = '\n' then
    if s.buf ≠ [] then
      let line := command_response s.buf
      if 0 < s.history.length ∧ s.historyIndex ≠ s.history.length then
        (0, { s with buf := [],
                     history := s.history.dropLast ++ [s.buf],
                     historyIndex := (s.history.dropLast.length % 65536 + 1) % 65536 },
         "\r\n".toList ++ line ++ PROMPT)
      else
        (0, { s with buf := [],
                     history := s.history ++ [s.buf],
                     historyIndex := (s.historyIndex + 1) % 65536 },
         "\r\n".toList ++ line ++ PROMPT)
    else
      (0, s, "\r\n".toList ++ PROMPT)
  else if c = '\x1b' then
    (0, { s with func := .arrowCheck }, [])
  else if c = '\x08' ∨ c = '\x7f' then
    if s.buf.length ≠ 0 then
      (0, { s with buf := s.buf.dropLast }, "\x08 \x08".toList)
    else
      (0, s, [])
  else if isprint c then
    (0, { s with buf := s.buf ++ [c] }, [c])
  else
    (0, s, [])

/-- The redraw line `"\r\033[K" + prompt + cmd` sent by the arrow
handlers. -/
def redraw (cmd : List Char) : List Char :=
  "\r\x1b[K".toList ++ PROMPT ++ cmd

/-- `parser_fsm_arrow` of the history variant.  `A` (Up): when the cursor
is positive, push the live buffer as a draft if the cursor equals the
history length, decrement the cursor, display and load that history entry.
`B` (Down): when the cursor is below the history length, increment it
(16-bit), display and load that entry, and pop it when it was the last
(draft) slot.  `C`/`D` only log on the server console.  Any other byte
re-dispatches through `parser_fsm_main` after resetting the state
function. -/
def parser_fsm_arrow (s : Session) (c : Char) : Int × Session × List Char :=
  if c = 'A' then
    if 0 < s.historyIndex then
      let hist1 := if s.historyIndex = s.history.length
                   then s.history ++ [s.buf] else s.history
      let idx1 := s.historyIndex - 1
      let cmd := hist1.getD idx1 []
      (0, { s with history := hist1, historyIndex := idx1, buf := cmd },
       redraw cmd)
    else
      (0, s, [])
  else if c = 'B' then
    if s.historyIndex < s.history.length then
      let idx1 := (s.historyIndex + 1) % 65536
      let cmd := s.history.getD idx1 []
      let hist1 := if idx1 = s.history.length - 1
                   then s.history.dropLast else s.history
      (0, { s with history := hist1, historyIndex := idx1, buf := cmd },
       redraw cmd)
    else
      (0, s, [])
  else if c = 'C' then
    (0, s, [])
  else if c = 'D' then
    (0, s, [])
  else
    parser_fsm_main { s with func := .main } c

/-- `parser_fsm_arrow_check` of the history variant: `[` advances to the
arrow state, any other byte resets the state function and re-dispatches
through `parser_fsm_main`. -/
def parser_fsm_arrow_check (s : Session) (c : Char) : Int × Session × List Char :=
  if c = '[' then
    (0, { s with func := .arrow }, [])
  else
    parser_fsm_main { s with func := .main } c

/-- One iteration of the `parser_fsm` receive loop: dispatch the byte
through the current state function. -/
def fsm_step (s : Session) (c : Char) : Int × Session × List Char :=
  match s.func with
  | .main => parser_fsm_main s c
  | .arrowCheck => parser_fsm_arrow_check s c
  | .arrow => parser_fsm_arrow s c

/-- The `parser_fsm` receive loop over a list of incoming bytes: feed each
byte to the current state function, stop as soon as a handler returns a
non-zero result (the source breaks out of the loop), and concatenate all
bytes sent to the client. -/
def fsm_run : Session → List Char → Int × Session × List Char
  | s, [] => (0, s, [])
  | s, c :: cs =>
    let p := fsm_step s c
    if p.1 = 0 then
      let q := fsm_run p.2.1 cs
      (q.1, q.2.1, p.2.2 ++ q.2.2)
    else
      p

/-- The session state after an Up key press (the `'A'` branch of
`parser_fsm_arrow`). -/
def press_up (s : Session) : Session :=
  (parser_fsm_arrow s 'A').2.1

/-- The session state after a Down key press (the `'B'` branch of
`parser_fsm_arrow`). -/
def press_down (s : Session) : Session :=
  (parser_fsm_arrow s 'B').2.1

/-- The browsing state reached from the live session `s` while the cursor
sits at `i`: the live buffer is parked as the draft (last) history entry
and the edit buffer shows `history[i]`. -/
def browse (s : Session) (i : Nat) : Session :=
  { func := s.func,
    buf := (s.history ++ [s.buf]).getD i [],
    history := s.history ++ [s.buf],
    historyIndex := i }

end V1

namespace V2

/-- Per-session state of the fixed-buffer variant: the state function and
the buffer contents between `buf_start` and the write cursor
`parse_data::buf` (the cursor offset is the length of `buf`). -/
structure Session where
  func : FsmState
  buf : List Char
deriving DecidableEq, Repr

/-- `parser_fsm_main` of the fixed-buffer variant, for a buffer of
`bufSize` bytes.  The write cursor sits at offset `buf.length`, and
`buf_end` is `buf_start + bufSize - 1`, so a printable byte with
`buf.length ≥ bufSize - 1` returns `-1` without touching the buffer. -/
def parser_fsm_main (bufSize : Nat) (s : Session) (c : Char) :
    Int × Session × List Char :=
  if c = '\x03' ∨ c = '\x04' then
    (1, s, [])
  else if c = '\r' ∨ c = '\n' then
    if 0 < s.buf.length then
      (0, { s with buf := [] },
       "\r\n".toList ++ "Get the CMD\r\n".toList ++ PROMPT)
    else
      (0, s, "\r\n".toList ++ PROMPT)
  else if c = '\x1b' then
    (0, { s with func := .arrowCheck }, [])
  else if c = '\x08' ∨ c = '\x7f' then
    if 0 < s.buf.length then
      (0, { s with buf := s.buf.dropLast }, "\x08 \x08".toList)
    else
      (0, s, [])
  else if isprint c then
    if bufSize - 1 ≤ s.buf.length then
      (-1, s, [])
    else
      (0, { s with buf := s.buf ++ [c] }, [c])
  else
    (0, s, [])

/-- `parser_fsm_arrow` of the fixed-buffer variant: the four arrow cases
only log on the server console; any other byte re-dispatches through
`parser_fsm_main`. -/
def parser_fsm_arrow (bufSize : Nat) (s : Session) (c : Char) :
    Int × Session × List Char :=
  if c = 'A' ∨ c = 'B' ∨ c = 'C' ∨ c = 'D' then
    (0, s, [])
  else
    parser_fsm_main bufSize { s with func := .main } c

/-- `parser_fsm_arrow_check` of the fixed-buffer variant. -/
def parser_fsm_arrow_check (bufSize : Nat) (s : Session) (c : Char) :
    Int × Session × List Char :=
  if c = '[' then
    (0, { s with func := .arrow }, [])
  else
    parser_fsm_main bufSize { s with func := .main } c

/-- One iteration of the `parser_fsm` receive loop of the fixed-buffer
variant. -/
def fsm_step (bufSize : Nat) (s : Session) (c : Char) :
    Int × Session × List Char :=
  match s.func with
  | .main => parser_fsm_main bufSize s c
  | .arrowCheck => parser_fsm_arrow_check bufSize s c
  | .arrow => parser_fsm_arrow bufSize s c

/-- The `parser_fsm` receive loop of the fixed-buffer variant; the source
returns `result` as soon as a handler yields a non-zero value. -/
def fsm_run (bufSize : Nat) : Session → List Char → Int × Session × List Char
  | s, [] => (0, s, [])
  | s, c :: cs =>
    let p := fsm_step bufSize s c
    if p.1 = 0 then
      let q := fsm_run bufSize p.2.1 cs
      (q.1, q.2.1, p.2.2 ++ q.2.2)
    else
      p

end V2

/-- `gc_register_socket`: under the registry mutex, append the handle to
the `sockets` vector. -/
def gc_register_socket (sockets : List Int) (socket : Int) : List Int :=
  sockets ++ [socket]

/-- `gc_unregister_socket`: under the registry mutex, look the handle up
with `std::find`; when present, erase its first occurrence and
shutdown/close it.  The second component lists the handles closed by the
call. -/
def gc_unregister_socket (sockets : List Int) (socket : Int) :
    List Int × List Int :=
  if socket ∈ sockets then
    (sockets.erase socket, [socket])
  else
    (sockets, [])

/-- `gc_cleanup_clients`: under the registry mutex, shutdown/close every
registered handle and clear the vector.  The second component lists the
handles closed by the call (none when the registry is already empty, as in
the source's early return). -/
def gc_cleanup_clients (sockets : List Int) : List Int × List Int :=
  ([], sockets)

/-- A sequence of `gc_register_socket` calls, one per handle. -/
def register_all : List Int → List Int → List Int
  | sockets, [] => sockets
  | sockets, h :: hs => register_all (gc_register_socket sockets h) hs

/-- A sequence of `gc_unregister_socket` calls, one per handle,
accumulating the handles each call closed. -/
def unregister_all : List Int → List Int → List Int × List Int
  | sockets, [] => (sockets, [])
  | sockets, u :: us =>
    let p := gc_unregister_socket sockets u
    let q := unregister_all p.1 us
    (q.1, p.2 ++ q.2)

/-! ### Dispatch lemmas for the receive loop -/

theorem V1.fsm_step_main (s : V1.Session) (c : Char) (hf : s.func = .main) :
    V1.fsm_step s c = V1.parser_fsm_main s c := by
  rw [V1.fsm_step, hf]

theorem V1.fsm_step_arrow_check (s : V1.Session) (c : Char)
    (hf : s.func = .arrowCheck) :
    V1.fsm_step s c = V1.parser_fsm_arrow_check s c := by
  rw [V1.fsm_step, hf]

theorem V1.fsm_step_arrow (s : V1.Session) (c : Char) (hf : s.func = .arrow) :
    V1.fsm_step s c = V1.parser_fsm_arrow s c := by
  rw [V1.fsm_step, hf]

/-! ### Commit behaviour of `parser_fsm_main` -/

theorem V1.main_commit_empty (s : V1.Session) (c : Char)
    (hc : c = '\r' ∨ c = '\n') (hb : s.buf = []) :
    V1.parser_fsm_main s c = (0, s, "\r\n".toList ++ PROMPT) := by
  rcases hc with rfl | rfl <;>
    rw [V1.parser_fsm_main, if_neg (by decide), if_pos (by decide),
        if_neg (by simp [hb])]

theorem V1.main_commit_live (s : V1.Session) (c : Char)
    (hc : c = '\r' ∨ c = '\n') (hb : s.buf ≠ [])
    (hi : s.historyIndex = s.history.length) :
    V1.parser_fsm_main s c =
      (0, { s with buf := [], history := s.history ++ [s.buf],
                   historyIndex := (s.historyIndex + 1) % 65536 },
       "\r\n".toList ++ V1.command_response s.buf ++ PROMPT) := by
  rcases hc with rfl | rfl <;>
    rw [V1.parser_fsm_main, if_neg (by decide), if_pos (by decide), if_pos hb,
        if_neg (by simp [hi])]

theorem V1.main_commit_browse (s : V1.Session) (c : Char)
    (hc : c = '\r' ∨ c = '\n') (hb : s.buf ≠ [])
    (hi : s.historyIndex < s.history.length) :
    V1.parser_fsm_main s c =
      (0, { s with buf := [], history := s.history.dropLast ++ [s.buf],
                   historyIndex := (s.history.dropLast.length % 65536 + 1) % 65536 },
       "\r\n".toList ++ V1.command_response s.buf ++ PROMPT) := by
  rcases hc with rfl | rfl <;>
    rw [V1.parser_fsm_main, if_neg (by decide), if_pos (by decide), if_pos hb,
        if_pos ⟨Nat.lt_of_le_of_lt (Nat.zero_le _) hi, Nat.ne_of_lt hi⟩]

/-! ### C3, C6, C10: committing a line -/

/-- C3 (amended): in the Normal state, CR or LF with an empty buffer
echoes `"\r\n"` and the prompt and leaves everything (history included)
unchanged with result Continue; with a non-empty buffer, when the cursor
equals the history length (the session is not browsing) and history holds
fewer than 65535 entries, it echoes `"\r\n"`, sends the command response
and the prompt, appends exactly one history entry equal to the pre-commit
buffer, clears the buffer and resets the cursor to the new history
length, with result Continue.  (The original claim fails for browsing
sessions, where the commit also removes the draft entry: see the
counterexample and C6.) -/
theorem c3_commit_line (s : V1.Session) (c : Char) (hf : s.func = .main)
    (hc : c = '\r' ∨ c = '\n') :
    (s.buf = [] → V1.fsm_step s c = (0, s, "\r\n".toList ++ PROMPT)) ∧
    (s.buf ≠ [] → s.historyIndex = s.history.length →
      s.history.length + 1 < 65536 →
      V1.fsm_step s c =
        (0, { s with buf := [], history := s.history ++ [s.buf],
                     historyIndex := (s.history ++ [s.buf]).length },
         "\r\n".toList ++ V1.command_response s.buf ++ PROMPT)) := by
  constructor
  · intro hb
    rw [V1.fsm_step_main s c hf, V1.main_commit_empty s c hc hb]
  · intro hb hi hlen
    have hmod : (s.historyIndex + 1) % 65536 = (s.history ++ [s.buf]).length := by
      rw [hi, List.length_append, List.length_singleton]
      exact Nat.mod_eq_of_lt hlen
    rw [V1.fsm_step_main s c hf, V1.main_commit_live s c hc hb hi, hmod]

/-- Witness for C3 at two concrete sessions, one per branch. -/
theorem c3_commit_line_witness :
    V1.fsm_step { func := .main, buf := [], history := [], historyIndex := 0 } '\r'
        = (0, { func := .main, buf := [], history := [], historyIndex := 0 },
           "\r\n".toList ++ PROMPT) ∧
    V1.fsm_step { func := .main, buf := ['h'], history := [['a']], historyIndex := 1 } '\n'
        = (0, { func := .main, buf := [],
                history := [['a']] ++ [['h']],
                historyIndex := ([['a']] ++ [['h']]).length },
           "\r\n".toList ++ V1.command_response ['h'] ++ PROMPT) :=
  ⟨(c3_commit_line _ '\r' rfl (Or.inl rfl)).1 rfl,
   (c3_commit_line { func := .main, buf := ['h'], history := [['a']],
                     historyIndex := 1 } '\n' rfl (Or.inr rfl)).2
     (by decide) (by decide) (by decide)⟩

/-- Counterexample to C3 as stated: the session reached from a fresh one
by the bytes `x CR y ESC [ A NUL` is in the Normal state with a non-empty
buffer, yet handling CR does not append one entry to its history — the
commit first pops the draft entry. -/
theorem c3_commit_line_counterexample :
    (V1.fsm_run V1.init_session ("x\ry\x1b[A\x00".toList)).1 = 0 ∧
    (V1.fsm_run V1.init_session ("x\ry\x1b[A\x00".toList)).2.1
        = { func := .main, buf := ['x'], history := [['x'], ['y']],
            historyIndex := 0 } ∧
    (V1.fsm_step { func := .main, buf := ['x'], history := [['x'], ['y']],
                   historyIndex := 0 } '\r').2.1.history
        ≠ [['x'], ['y']] ++ [['x']] := by
  decide

/-- C6: committing (CR or LF, non-empty buffer) while the cursor is
strictly below the history length commits the currently displayed buffer
content and removes the pending draft — the last history entry — so the
new history is `dropLast` of the old one with the displayed buffer
appended, and the buffer is cleared. -/
theorem c6_commit_mid_browse (s : V1.Session) (c : Char) (hf : s.func = .main)
    (hc : c = '\r' ∨ c = '\n') (hb : s.buf ≠ [])
    (hi : s.historyIndex < s.history.length) :
    (V1.fsm_step s c).1 = 0 ∧
    (V1.fsm_step s c).2.1.history = s.history.dropLast ++ [s.buf] ∧
    (V1.fsm_step s c).2.1.buf = [] := by
  rw [V1.fsm_step_main s c hf, V1.main_commit_browse s c hc hb hi]
  exact ⟨rfl, rfl, rfl⟩

/-- Witness for C6 at a concrete mid-browse session. -/
theorem c6_commit_mid_browse_witness :
    (V1.fsm_step { func := .main, buf := ['z'], history := [['a'], ['d']],
                   historyIndex := 0 } '\r').1 = 0 ∧
    (V1.fsm_step { func := .main, buf := ['z'], history := [['a'], ['d']],
                   historyIndex := 0 } '\r').2.1.history
        = [['a'], ['d']].dropLast ++ [['z']] ∧
    (V1.fsm_step { func := .main, buf := ['z'], history := [['a'], ['d']],
                   historyIndex := 0 } '\r').2.1.buf = [] :=
  c6_commit_mid_browse _ '\r' rfl (Or.inl rfl) (by decide) (by decide)

/-- Unfolding step for the receive loop when a handler returns `0`. -/
theorem V1.fsm_run_cons_continue (s s1 : V1.Session) (c : Char)
    (cs out1 : List Char) (h : V1.fsm_step s c = (0, s1, out1)) :
    V1.fsm_run s (c :: cs) =
      ((V1.fsm_run s1 cs).1, (V1.fsm_run s1 cs).2.1,
       out1 ++ (V1.fsm_run s1 cs).2.2) := by
  simp [V1.fsm_run, h]

/-- C10 (amended): in the Normal state with a non-empty buffer, when the
cursor equals the history length (not mid-browse) and history holds fewer
than 65535 entries, the two-byte line ending CR LF appends exactly one
history entry; the LF is an empty commit leaving history unchanged, and
the `"\r\n"` echo and the prompt are each emitted twice, once per byte. -/
theorem c10_crlf_double_prompt (s : V1.Session) (hf : s.func = .main)
    (hb : s.buf ≠ []) (hi : s.historyIndex = s.history.length)
    (hlen : s.history.length + 1 < 65536) :
    V1.fsm_run s ['\r', '\n'] =
      (0, { s with buf := [], history := s.history ++ [s.buf],
                   historyIndex := (s.history ++ [s.buf]).length },
       ("\r\n".toList ++ V1.command_response s.buf ++ PROMPT) ++
       ("\r\n".toList ++ PROMPT)) := by
  have hmod : (s.historyIndex + 1) % 65536 = (s.history ++ [s.buf]).length := by
    rw [hi, List.length_append, List.length_singleton]
    exact Nat.mod_eq_of_lt hlen
  have h1 : V1.fsm_step s '\r' =
      (0, { s with buf := [], history := s.history ++ [s.buf],
                   historyIndex := (s.history ++ [s.buf]).length },
       "\r\n".toList ++ V1.command_response s.buf ++ PROMPT) := by
    rw [V1.fsm_step_main s _ hf, V1.main_commit_live s _ (Or.inl rfl) hb hi, hmod]
  have h2 : V1.fsm_step
      { s with buf := [], history := s.history ++ [s.buf],
               historyIndex := (s.history ++ [s.buf]).length } '\n' =
      (0, { s with buf := [], history := s.history ++ [s.buf],
                   historyIndex := (s.history ++ [s.buf]).length },
       "\r\n".toList ++ PROMPT) := by
    rw [V1.fsm_step_main
          { s with buf := [], history := s.history ++ [s.buf],
                   historyIndex := (s.history ++ [s.buf]).length } '\n' hf,
        V1.main_commit_empty _ _ (Or.inr rfl) rfl]
  rw [V1.fsm_run_cons_continue _ _ _ _ _ h1,
      V1.fsm_run_cons_continue _ _ _ _ _ h2]
  simp [V1.fsm_run]

/-- Witness for C10 at a concrete session. -/
theorem c10_crlf_double_prompt_witness :
    V1.fsm_run { func := .main, buf := ['h'], history := [], historyIndex := 0 }
        ['\r', '\n'] =
      (0, { func := .main, buf := [], history := [] ++ [['h']],
            historyIndex := ([] ++ [['h']]).length },
       ("\r\n".toList ++ V1.command_response ['h'] ++ PROMPT) ++
       ("\r\n".toList ++ PROMPT)) :=
  c10_crlf_double_prompt _ rfl (by decide) (by decide) (by decide)

/-- Counterexample to C10 as stated: for the reachable Normal-state
session with a non-empty buffer obtained from a fresh one by the bytes
`x CR y ESC [ A NUL`, receiving CR LF does not append exactly one history
entry — the first commit also pops the draft entry. -/
theorem c10_crlf_double_prompt_counterexample :
    (V1.fsm_run V1.init_session ("x\ry\x1b[A\x00".toList)).2.1
        = { func := .main, buf := ['x'], history := [['x'], ['y']],
            historyIndex := 0 } ∧
    (V1.fsm_run { func := .main, buf := ['x'], history := [['x'], ['y']],
                  historyIndex := 0 } ['\r', '\n']).2.1.history
        ≠ [['x'], ['y']] ++ [['x']] := by
  decide

/-! ### History navigation: Up and Down -/

theorem V1.arrow_up_zero (s : V1.Session) (h : s.historyIndex = 0) :
    V1.parser_fsm_arrow s 'A' = (0, s, []) := by
  rw [V1.parser_fsm_arrow, if_pos rfl, if_neg (by omega)]

theorem V1.arrow_down_live (s : V1.Session)
    (hi : s.historyIndex = s.history.length) :
    V1.parser_fsm_arrow s 'B' = (0, s, []) := by
  rw [V1.parser_fsm_arrow, if_neg (by decide), if_pos rfl, if_neg (by omega)]

theorem V1.press_up_live (s : V1.Session) (hn : 1 ≤ s.history.length)
    (hi : s.historyIndex = s.history.length) :
    V1.press_up s = V1.browse s (s.history.length - 1) := by
  rw [V1.press_up, V1.parser_fsm_arrow, if_pos rfl, if_pos (by omega)]
  simp [V1.browse, hi]

theorem V1.press_up_browse (s : V1.Session) (i : Nat) (h0 : 0 < i)
    (hlt : i < s.history.length) :
    V1.press_up (V1.browse s i) = V1.browse s (i - 1) := by
  have hne : (V1.browse s i).historyIndex ≠ (V1.browse s i).history.length := by
    simp [V1.browse]
    omega
  rw [V1.press_up, V1.parser_fsm_arrow, if_pos rfl,
      if_pos (by simpa [V1.browse] using h0)]
  simp [V1.browse]
  constructor
  · rw [if_neg (by omega)]
  · omega

theorem V1.press_down_browse (s : V1.Session) (i : Nat)
    (hlt : i + 1 < s.history.length) (hn : s.history.length < 65536) :
    V1.press_down (V1.browse s i) = V1.browse s (i + 1) := by
  have hguard : (V1.browse s i).historyIndex < (V1.browse s i).history.length := by
    simp [V1.browse]
    omega
  have hmod : (i + 1) % 65536 = i + 1 := Nat.mod_eq_of_lt (by omega)
  have hpop : i + 1 ≠ (s.history ++ [s.buf]).length - 1 := by
    simp
    omega
  rw [V1.press_down, V1.parser_fsm_arrow, if_neg (by decide), if_pos rfl,
      if_pos hguard]
  simp [V1.browse, hmod, hpop]
  omega

theorem V1.press_down_exit (s : V1.Session) (hn1 : 1 ≤ s.history.length)
    (hn : s.history.length < 65536)
    (hi : s.historyIndex = s.history.length) :
    V1.press_down (V1.browse s (s.history.length - 1)) = s := by
  have hguard : (V1.browse s (s.history.length - 1)).historyIndex
      < (V1.browse s (s.history.length - 1)).history.length := by
    simp [V1.browse]
    omega
  have hmod : (s.history.length - 1 + 1) % 65536 = s.history.length := by omega
  have hgd : (s.history ++ [s.buf]).getD s.history.length [] = s.buf := by
    rw [List.getD_append_right _ _ _ _ (Nat.le_refl _)]
    simp
  rw [V1.press_down, V1.parser_fsm_arrow, if_neg (by decide), if_pos rfl,
      if_pos hguard]
  simp [V1.browse, hmod, hgd, hi]
  rw [← hi]

theorem V1.up_iter (s : V1.Session) (k : Nat)
    (hi : s.historyIndex = s.history.length) (hk1 : 1 ≤ k)
    (hk : k ≤ s.history.length) :
    V1.press_up^[k] s = V1.browse s (s.history.length - k) := by
  induction k with
  | zero => omega
  | succ k ih =>
    by_cases hk0 : k = 0
    · subst hk0
      rw [Function.iterate_one]
      exact V1.press_up_live s (by omega) hi
    · rw [Function.iterate_succ_apply', ih (by omega) (by omega),
          V1.press_up_browse s _ (by omega) (by omega)]
      congr 1

theorem V1.up_saturate (s : V1.Session) (m : Nat)
    (hi : s.historyIndex = s.history.length) (hn1 : 1 ≤ s.history.length) :
    V1.press_up^[s.history.length + m] s = V1.browse s 0 := by
  induction m with
  | zero =>
    have h := V1.up_iter s s.history.length hi hn1 (Nat.le_refl _)
    simpa using h
  | succ m ih =>
    have harith : s.history.length + (m + 1) = (s.history.length + m) + 1 := rfl
    rw [harith, Function.iterate_succ_apply', ih]
    rw [V1.press_up, V1.arrow_up_zero (V1.browse s 0) rfl]

theorem V1.down_iter (s : V1.Session) (j : Nat)
    (hi : s.historyIndex = s.history.length) (hn : s.history.length < 65536)
    (hj1 : 1 ≤ j) (hj : j ≤ s.history.length) :
    V1.press_down^[j] (V1.browse s (s.history.length - j)) = s := by
  induction j with
  | zero => omega
  | succ j ih =>
    by_cases hj0 : j = 0
    · subst hj0
      rw [Function.iterate_one]
      exact V1.press_down_exit s (by omega) hn hi
    · rw [Function.iterate_succ_apply,
          V1.press_down_browse s _ (by omega) hn]
      have harg : s.history.length - (j + 1) + 1 = s.history.length - j := by
        omega
      rw [harg]
      exact ih (by omega) (by omega)

/-! ### C4, C5: browsing the history with Up and Down -/

/-- C4: from a live session (cursor at history length), any run of `k ≥ 1`
Up presses followed by `k` Down presses returns the session to exactly its
starting state: the last Down press — the one moving past the most-recent
historical entry — restores the edit buffer from the draft saved before
the first Up press and removes the draft entry from history.  A Down press
with the cursor already at the history length is a no-op.  (The cursor is
a C `unsigned short`, so a live cursor only exists for histories shorter
than 65536 entries.) -/
theorem c4_down_restores_live_draft :
    (∀ (s : V1.Session) (k : Nat), s.historyIndex = s.history.length →
       s.history.length < 65536 → 1 ≤ k → k ≤ s.history.length →
       V1.press_down^[k] (V1.press_up^[k] s) = s) ∧
    (∀ s : V1.Session, s.historyIndex = s.history.length →
       V1.parser_fsm_arrow s 'B' = (0, s, [])) := by
  constructor
  · intro s k hi hn hk1 hk
    rw [V1.up_iter s k hi hk1 hk, V1.down_iter s k hi hn hk1 hk]
  · intro s hi
    exact V1.arrow_down_live s hi

/-- Witness for C4: two Up presses then two Down presses restore a
concrete session; a Down press on a live session is a no-op. -/
theorem c4_down_restores_live_draft_witness :
    V1.press_down^[2] (V1.press_up^[2]
        { func := .main, buf := ['z'], history := [['a'], ['b']],
          historyIndex := 2 })
      = { func := .main, buf := ['z'], history := [['a'], ['b']],
          historyIndex := 2 } ∧
    V1.parser_fsm_arrow
        { func := .main, buf := [], history := [['a']], historyIndex := 1 } 'B'
      = (0, { func := .main, buf := [], history := [['a']],
              historyIndex := 1 }, []) :=
  ⟨c4_down_restores_live_draft.1 _ 2 (by decide) (by decide) (by decide)
     (by decide),
   c4_down_restores_live_draft.2 _ (by decide)⟩

/-- C5: an Up press with positive cursor first parks the live buffer as a
draft when the cursor equals the history length, then decrements the
cursor, loads `history[cursor]` into the buffer and redraws; an Up press
with cursor `0` is a no-op; hence `k` Up presses from the live line reach
the browsing state showing entry `length - k` (most recent first, oldest
last), and further presses beyond the oldest entry change nothing. -/
theorem c5_up_most_recent_to_oldest :
    (∀ s : V1.Session, 0 < s.historyIndex →
       V1.parser_fsm_arrow s 'A' =
         ((0 : Int),
          { s with
              history := (if s.historyIndex = s.history.length
                          then s.history ++ [s.buf] else s.history),
              historyIndex := s.historyIndex - 1,
              buf := (if s.historyIndex = s.history.length
                      then s.history ++ [s.buf] else s.history).getD
                       (s.historyIndex - 1) [] },
          V1.redraw ((if s.historyIndex = s.history.length
                      then s.history ++ [s.buf] else s.history).getD
                       (s.historyIndex - 1) []))) ∧
    (∀ s : V1.Session, s.historyIndex = 0 →
       V1.parser_fsm_arrow s 'A' = (0, s, [])) ∧
    (∀ (s : V1.Session) (k : Nat), s.historyIndex = s.history.length →
       1 ≤ k → k ≤ s.history.length →
       V1.press_up^[k] s = V1.browse s (s.history.length - k)) ∧
    (∀ (s : V1.Session) (m : Nat), s.historyIndex = s.history.length →
       1 ≤ s.history.length →
       V1.press_up^[s.history.length + m] s = V1.browse s 0) := by
  refine ⟨?_, ?_, ?_, ?_⟩
  · intro s h
    rw [V1.parser_fsm_arrow, if_pos rfl, if_pos h]
  · intro s h
    exact V1.arrow_up_zero s h
  · intro s k hi hk1 hk
    exact V1.up_iter s k hi hk1 hk
  · intro s m hi hn1
    exact V1.up_saturate s m hi hn1

/-- Witness for C5 at concrete sessions, one per conjunct. -/
theorem c5_up_most_recent_to_oldest_witness :
    V1.parser_fsm_arrow
        { func := .main, buf := ['q'], history := [['a'], ['b']],
          historyIndex := 2 } 'A'
      = (0, { func := .main, buf := ['b'],
              history := [['a'], ['b'], ['q']], historyIndex := 1 },
         V1.redraw ['b']) ∧
    V1.parser_fsm_arrow
        { func := .main, buf := ['q'], history := [['a']],
          historyIndex := 0 } 'A'
      = (0, { func := .main, buf := ['q'], history := [['a']],
              historyIndex := 0 }, []) ∧
    V1.press_up^[1]
        { func := .main, buf := ['q'], history := [['a'], ['b']],
          historyIndex := 2 }
      = V1.browse { func := .main, buf := ['q'], history := [['a'], ['b']],
                    historyIndex := 2 } 1 ∧
    V1.press_up^[2]
        { func := .main, buf := ['q'], history := [['a'], ['b']],
          historyIndex := 2 }
      = V1.browse { func := .main, buf := ['q'], history := [['a'], ['b']],
                    historyIndex := 2 } 0 :=
  ⟨c5_up_most_recent_to_oldest.1 _ (by decide),
   c5_up_most_recent_to_oldest.2.1 _ (by decide),
   c5_up_most_recent_to_oldest.2.2.1
     { func := .main, buf := ['q'], history := [['a'], ['b']],
       historyIndex := 2 } 1 (by decide) (by decide) (by decide),
   c5_up_most_recent_to_oldest.2.2.2
     { func := .main, buf := ['q'], history := [['a'], ['b']],
       historyIndex := 2 } 0 (by decide) (by decide)⟩

/-! ### C7: escape-sequence decoding -/

/-- C7: in the EscapeSeen state (`parser_fsm_arrow_check`), the byte `[`
moves to the BracketSeen state with result Continue and no output; any
other byte resets the state function to Normal and re-dispatches the same
byte through the Normal-state logic; likewise in BracketSeen
(`parser_fsm_arrow`), any byte other than `A`, `B`, `C`, `D` resets the
state function to Normal and re-dispatches through the Normal-state
logic. -/
theorem c7_escape_redispatch (s : V1.Session) (c : Char) :
    (s.func = .arrowCheck → c = '[' →
      V1.fsm_step s c = (0, { s with func := .arrow }, [])) ∧
    (s.func = .arrowCheck → c ≠ '[' →
      V1.fsm_step s c = V1.parser_fsm_main { s with func := .main } c) ∧
    (s.func = .arrow → c ≠ 'A' → c ≠ 'B' → c ≠ 'C' → c ≠ 'D' →
      V1.fsm_step s c = V1.parser_fsm_main { s with func := .main } c) := by
  refine ⟨?_, ?_, ?_⟩
  · intro hf hc
    subst hc
    rw [V1.fsm_step_arrow_check s _ hf, V1.parser_fsm_arrow_check, if_pos rfl]
  · intro hf hc
    rw [V1.fsm_step_arrow_check s _ hf, V1.parser_fsm_arrow_check, if_neg hc]
  · intro hf h1 h2 h3 h4
    rw [V1.fsm_step_arrow s _ hf, V1.parser_fsm_arrow, if_neg h1, if_neg h2,
        if_neg h3, if_neg h4]

/-- Witness for C7 at a concrete session, one instance per conjunct. -/
theorem c7_escape_redispatch_witness :
    V1.fsm_step { func := .arrowCheck, buf := ['a'], history := [],
                  historyIndex := 0 } '['
      = (0, { func := .arrow, buf := ['a'], history := [],
              historyIndex := 0 }, []) ∧
    V1.fsm_step { func := .arrowCheck, buf := ['a'], history := [],
                  historyIndex := 0 } 'x'
      = V1.parser_fsm_main { func := .main, buf := ['a'], history := [],
                             historyIndex := 0 } 'x' ∧
    V1.fsm_step { func := .arrow, buf := ['a'], history := [],
                  historyIndex := 0 } 'x'
      = V1.parser_fsm_main { func := .main, buf := ['a'], history := [],
                             historyIndex := 0 } 'x' :=
  ⟨(c7_escape_redispatch _ '[').1 rfl rfl,
   (c7_escape_redispatch _ 'x').2.1 rfl (by decide),
   (c7_escape_redispatch _ 'x').2.2 rfl (by decide) (by decide) (by decide)
     (by decide)⟩

/-! ### C9: the redraw byte sequence -/

/-- C9: every history redraw triggered by an Up press (positive cursor) or
a Down press (cursor below history length) sends exactly the carriage
return, the ANSI erase-to-end-of-line sequence `ESC [ K`, the prompt
string and the resulting buffer content, with no trailing newline. -/
theorem c9_redraw_bytes (s : V1.Session) :
    (0 < s.historyIndex →
      (V1.parser_fsm_arrow s 'A').2.2 =
        "\r".toList ++ "\x1b[K".toList ++ PROMPT ++
          (V1.parser_fsm_arrow s 'A').2.1.buf) ∧
    (s.historyIndex < s.history.length →
      (V1.parser_fsm_arrow s 'B').2.2 =
        "\r".toList ++ "\x1b[K".toList ++ PROMPT ++
          (V1.parser_fsm_arrow s 'B').2.1.buf) := by
  have hsplit : ("\r\x1b[K".toList : List Char)
      = "\r".toList ++ "\x1b[K".toList := by decide
  constructor
  · intro h
    rw [V1.parser_fsm_arrow, if_pos rfl, if_pos h]
    simp [V1.redraw, hsplit]
  · intro h
    rw [V1.parser_fsm_arrow, if_neg (by decide), if_pos rfl, if_pos h]
    simp [V1.redraw, hsplit]

/-- Witness for C9 at a concrete browsing session. -/
theorem c9_redraw_bytes_witness :
    (V1.parser_fsm_arrow { func := .main, buf := ['q'],
                           history := [['a'], ['b']], historyIndex := 1 }
        'A').2.2 =
      "\r".toList ++ "\x1b[K".toList ++ PROMPT ++
        (V1.parser_fsm_arrow { func := .main, buf := ['q'],
                               history := [['a'], ['b']], historyIndex := 1 }
          'A').2.1.buf ∧
    (V1.parser_fsm_arrow { func := .main, buf := ['q'],
                           history := [['a'], ['b']], historyIndex := 1 }
        'B').2.2 =
      "\r".toList ++ "\x1b[K".toList ++ PROMPT ++
        (V1.parser_fsm_arrow { func := .main, buf := ['q'],
                               history := [['a'], ['b']], historyIndex := 1 }
          'B').2.1.buf :=
  ⟨(c9_redraw_bytes _).1 (by decide), (c9_redraw_bytes _).2 (by decide)⟩

/-! ### C1: buffer overflow in the fixed-buffer variant -/

/-- C1: in the Normal state of the fixed-buffer variant, a printable byte
arriving while the edit buffer is exactly at capacity (`bufSize - 1`
bytes, the write cursor at `buf_end`) makes the handler return `-1`
(`Fail`, reported by the source as the buffer-overflow guard) without
modifying the buffer and without sending anything, and the receive loop
stops at once with that result, processing no further bytes — the session
terminates with no retry and no truncation. -/
theorem c1_overflow_terminates (bufSize : Nat) (s : V2.Session) (c : Char)
    (rest : List Char) (hf : s.func = .main)
    (hcap : s.buf.length = bufSize - 1) (hp : isprint c = true) :
    V2.fsm_step bufSize s c = (-1, s, []) ∧
    V2.fsm_run bufSize s (c :: rest) = (-1, s, []) := by
  have hstep : V2.fsm_step bufSize s c = (-1, s, []) := by
    have hdisp : V2.fsm_step bufSize s c = V2.parser_fsm_main bufSize s c := by
      rw [V2.fsm_step, hf]
    rw [hdisp, V2.parser_fsm_main,
        if_neg (by rintro (rfl | rfl) <;> exact absurd hp (by decide)),
        if_neg (by rintro (rfl | rfl) <;> exact absurd hp (by decide)),
        if_neg (by rintro rfl; exact absurd hp (by decide)),
        if_neg (by rintro (rfl | rfl) <;> exact absurd hp (by decide)),
        if_pos hp, if_pos (by omega)]
  refine ⟨hstep, ?_⟩
  simp [V2.fsm_run, hstep]

/-- Witness for C1: a two-byte buffer (capacity one) already holding one
byte fails on the next printable byte. -/
theorem c1_overflow_terminates_witness :
    V2.fsm_step 2 { func := .main, buf := ['a'] } 'b'
      = (-1, { func := .main, buf := ['a'] }, []) ∧
    V2.fsm_run 2 { func := .main, buf := ['a'] } ['b', 'c']
      = (-1, { func := .main, buf := ['a'] }, []) :=
  c1_overflow_terminates 2 { func := .main, buf := ['a'] } 'b' ['c'] rfl
    (by decide) (by decide)

/-! ### C2, C8: the socket registry -/

/-- C2: within the registry (all three operations run under the single
`gc_mutex`, so an interleaving of a session-end `gc_unregister_socket`
and a shutdown `gc_cleanup_clients` is one of the two orders of the two
atomic calls), a handle occurring at most once in the registry — the
registration invariant — is closed exactly as many times as it occurs, in
either order: a registered handle is closed exactly once, and a handle
already unregistered is never closed a second time (the unregister of an
absent handle closes nothing and changes nothing). -/
theorem c2_close_exactly_once (sockets : List Int) (h : Int)
    (hcount : sockets.count h ≤ 1) :
    (((gc_unregister_socket sockets h).2 ++
        (gc_cleanup_clients (gc_unregister_socket sockets h).1).2).count h
      = (if h ∈ sockets then 1 else 0) ∧
     h ∉ (gc_cleanup_clients (gc_unregister_socket sockets h).1).1) ∧
    (((gc_cleanup_clients sockets).2 ++
        (gc_unregister_socket (gc_cleanup_clients sockets).1 h).2).count h
      = (if h ∈ sockets then 1 else 0) ∧
     h ∉ (gc_unregister_socket (gc_cleanup_clients sockets).1 h).1) ∧
    (h ∉ sockets → gc_unregister_socket sockets h = (sockets, [])) := by
  refine ⟨?_, ?_, ?_⟩
  · by_cases hm : h ∈ sockets
    · have hone : sockets.count h = 1 :=
        Nat.le_antisymm hcount (List.count_pos_iff.mpr hm)
      constructor
      · simp [gc_unregister_socket, gc_cleanup_clients, hm,
              List.count_append, List.count_erase_self, hone]
      · simp [gc_cleanup_clients]
    · have hz : sockets.count h = 0 := List.count_eq_zero.mpr hm
      constructor
      · simp [gc_unregister_socket, gc_cleanup_clients, hm, hz]
      · simp [gc_cleanup_clients]
  · by_cases hm : h ∈ sockets
    · have hone : sockets.count h = 1 :=
        Nat.le_antisymm hcount (List.count_pos_iff.mpr hm)
      constructor
      · simp [gc_unregister_socket, gc_cleanup_clients, hm, hone]
      · simp [gc_unregister_socket, gc_cleanup_clients]
    · have hz : sockets.count h = 0 := List.count_eq_zero.mpr hm
      constructor
      · simp [gc_unregister_socket, gc_cleanup_clients, hm, hz]
      · simp [gc_unregister_socket, gc_cleanup_clients]
  · intro hm
    rw [gc_unregister_socket, if_neg hm]

/-- Witness for C2 with a singleton registry. -/
theorem c2_close_exactly_once_witness :
    (((gc_unregister_socket [5] 5).2 ++
        (gc_cleanup_clients (gc_unregister_socket [5] 5).1).2).count 5
      = (if (5 : Int) ∈ ([5] : List Int) then 1 else 0) ∧
     (5 : Int) ∉ (gc_cleanup_clients (gc_unregister_socket [5] 5).1).1) ∧
    (((gc_cleanup_clients [5]).2 ++
        (gc_unregister_socket (gc_cleanup_clients [5]).1 5).2).count 5
      = (if (5 : Int) ∈ ([5] : List Int) then 1 else 0) ∧
     (5 : Int) ∉ (gc_unregister_socket (gc_cleanup_clients [5]).1 5).1) ∧
    ((5 : Int) ∉ ([7] : List Int) → gc_unregister_socket [7] 5 = ([7], [])) :=
  ⟨(c2_close_exactly_once [5] 5 (by decide)).1,
   (c2_close_exactly_once [5] 5 (by decide)).2.1,
   (c2_close_exactly_once [7] 5 (by decide)).2.2⟩

theorem register_all_append (sockets hs : List Int) :
    register_all sockets hs = sockets ++ hs := by
  induction hs generalizing sockets with
  | nil => simp [register_all]
  | cons a t ih =>
    rw [register_all, ih, gc_register_socket]
    simp

theorem unregister_all_length (us sockets : List Int) (hnd : us.Nodup)
    (hmem : ∀ u ∈ us, u ∈ sockets) :
    (unregister_all sockets us).1.length = sockets.length - us.length := by
  induction us generalizing sockets with
  | nil => simp [unregister_all]
  | cons u t ih =>
    have hu : u ∈ sockets := hmem u (List.mem_cons_self u t)
    have hul : 0 < sockets.length := List.length_pos_of_mem hu
    have hnd' : t.Nodup := (List.nodup_cons.mp hnd).2
    have hun : u ∉ t := (List.nodup_cons.mp hnd).1
    rw [unregister_all]
    simp only [gc_unregister_socket, if_pos hu]
    rw [ih (sockets.erase u) hnd'
          (fun v hv => (List.mem_erase_of_ne
            (fun (he : v = u) => hun (he ▸ hv))).mpr
              (hmem v (List.mem_cons_of_mem u hv))),
        List.length_erase_of_mem hu]
    simp
    omega

/-- C8: unregistering a handle that was never registered is a no-op with
no close; and after registering the distinct handles `hs` and then
unregistering the distinct handles `us ⊆ hs`, shutdown cleanup closes
exactly `hs.length - us.length` handles and leaves the registry empty. -/
theorem c8_registry_balance :
    (∀ (sockets : List Int) (h : Int), h ∉ sockets →
       gc_unregister_socket sockets h = (sockets, [])) ∧
    (∀ hs us : List Int, hs.Nodup → us.Nodup → (∀ u ∈ us, u ∈ hs) →
       (gc_cleanup_clients (unregister_all (register_all [] hs) us).1).2.length
         = hs.length - us.length ∧
       (gc_cleanup_clients (unregister_all (register_all [] hs) us).1).1
         = []) := by
  constructor
  · intro sockets h hm
    rw [gc_unregister_socket, if_neg hm]
  · intro hs us hnd1 hnd2 hsub
    have hreg : register_all [] hs = hs := by
      rw [register_all_append]
      simp
    constructor
    · show (unregister_all (register_all [] hs) us).1.length = _
      rw [hreg, unregister_all_length us hs hnd2 hsub]
    · rfl

/-- Witness for C8: three registers, one unregister, cleanup closes the
remaining two handles. -/
theorem c8_registry_balance_witness :
    gc_unregister_socket [3] 7 = ([3], []) ∧
    (gc_cleanup_clients (unregister_all (register_all [] [1, 2, 3]) [2]).1).2.length
      = ([1, 2, 3] : List Int).length - ([2] : List Int).length ∧
    (gc_cleanup_clients (unregister_all (register_all [] [1, 2, 3]) [2]).1).1
      = [] :=
  ⟨c8_registry_balance.1 [3] 7 (by decide),
   (c8_registry_balance.2 [1, 2, 3] [2] (by decide) (by decide)
      (by decide)).1,
   (c8_registry_balance.2 [1, 2, 3] [2] (by decide) (by decide)
      (by decide)).2⟩
